import Mathlib

/-!
Shallow embedding of the Pixera_Countdowns backend (`pixera_backend/main.py`).

Python strings are modelled as `List Char` (ASCII fragment: the model covers
ASCII digits, sign characters and ASCII whitespace; exotic Unicode numerals
accepted by Python's `int()` are outside the model).  Python dicts are
modelled as association lists with Python's insertion-order/replace-on-rewrite
semantics.  The float expression `int((frames / fps) * 1000)` inside
`parse_countdown_string` is modelled bit-exactly: both roundings (the
division and the multiplication) are performed as round-to-nearest-even on
exact rationals with a 53-bit significand, which is the IEEE-754 binary64
behaviour for all inputs below the overflow threshold.
-/

namespace Pixera

/-- Character class used by the model for Python's `str.strip()` (ASCII whitespace). -/
def isPySpace (c : Char) : Bool :=
  c.toNat = 32 || c.toNat = 9 || c.toNat = 10 || c.toNat = 13 || c.toNat = 11 || c.toNat = 12

/-- ASCII decimal digit test. -/
def isDigitChar (c : Char) : Bool :=
  48 ≤ c.toNat && c.toNat ≤ 57

/-- Python `str.strip()`: drop ASCII whitespace from both ends. -/
def pyStrip (s : List Char) : List Char :=
  ((s.dropWhile isPySpace).reverse.dropWhile isPySpace).reverse

/-- Head test mirroring Python's `.startswith("-")`. -/
def startsWithMinus : List Char → Bool
  | [] => false
  | c :: _ => c = '-'

/-- Tail of a digit run in Python's integer literal grammar: `(["_"] digit)*`.
A single underscore may separate two digits; it may not lead, trail or repeat. -/
def pyDigitsRest (acc : Nat) : List Char → Option Nat
  | [] => some acc
  | c :: rest =>
    if c = '_' then
      match rest with
      | c2 :: rest2 =>
        if isDigitChar c2 then pyDigitsRest (acc * 10 + (c2.toNat - 48)) rest2 else none
      | [] => none
    else if isDigitChar c then pyDigitsRest (acc * 10 + (c.toNat - 48)) rest else none

/-- Digit part of Python's `int()` grammar: `digit (["_"] digit)*`. -/
def pyDigits : List Char → Option Nat
  | [] => none
  | c :: rest => if isDigitChar c then pyDigitsRest (c.toNat - 48) rest else none

/-- Model of Python's `int(s)` for base-10 ASCII input: optional surrounding
whitespace, one optional sign, then a digit run with optional single
underscore separators.  `none` models a raised `ValueError`. -/
def pyInt (s : List Char) : Option Int :=
  match pyStrip s with
  | [] => none
  | c :: rest =>
    if c = '-' then (pyDigits rest).map (fun n => -(n : Int))
    else if c = '+' then (pyDigits rest).map (fun n => (n : Int))
    else (pyDigits (c :: rest)).map (fun n => (n : Int))

/-- Python `str.split(sep)` for a one-character separator. -/
def splitOnChar (sep : Char) : List Char → List (List Char)
  | [] => [[]]
  | c :: rest =>
    if c = sep then [] :: splitOnChar sep rest
    else
      match splitOnChar sep rest with
      | [] => [[c]]
      | g :: gs => (c :: g) :: gs

/-- Fuel-bounded bit length; fuel 4096 covers every value the double-precision
model can meet before Python's own float overflow. -/
def bitlenAux : Nat → Nat → Nat
  | 0, _ => 0
  | fuel + 1, n => if n = 0 then 0 else bitlenAux fuel (n / 2) + 1

/-- Bit length of a natural number (0 for 0). -/
def bitlen (n : Nat) : Nat := bitlenAux 4096 n

/-- Floor of the base-2 logarithm of the positive rational `a / b`. -/
def floorLog2Rat (a b : Nat) : Int :=
  let d : Int := (bitlen a : Int) - (bitlen b : Int)
  if 0 ≤ d then (if b * 2 ^ d.toNat ≤ a then d else d - 1)
  else (if b ≤ a * 2 ^ (-d).toNat then d else d - 1)

/-- Round the positive rational `a / b` to the nearest IEEE-754 binary64 value
(round half to even), returned as a significand/exponent pair `(m, E)` with
value `m * 2 ^ E` and `2 ^ 52 ≤ m < 2 ^ 53`.  Subnormal and overflow ranges
are outside the inputs this development evaluates. -/
def roundRatToDouble (a b : Nat) : Nat × Int :=
  let E : Int := floorLog2Rat a b - 52
  let t : Nat × Nat × Nat :=
    if 0 ≤ E then
      let den := b * 2 ^ E.toNat
      (a / den, a % den, den)
    else
      let num := a * 2 ^ (-E).toNat
      (num / b, num % b, b)
  let m0 := t.1
  let r := t.2.1
  let den := t.2.2
  let m1 :=
    if den < 2 * r then m0 + 1
    else if 2 * r < den then m0
    else if m0 % 2 = 0 then m0 else m0 + 1
  if m1 = 2 ^ 53 then (2 ^ 52, E + 1) else (m1, E)

/-- Bit-exact model of the Python expression `int((f / 60) * 1000)` for a
non-negative integer `f`: divide by 60 with one float rounding, multiply by
1000 with a second float rounding, then truncate. -/
def pyFrameMsNat (f : Nat) : Nat :=
  if f = 0 then 0
  else
    let p1 := roundRatToDouble f 60
    let q : Nat × Nat :=
      if 0 ≤ p1.2 then (p1.1 * 1000 * 2 ^ p1.2.toNat, 1)
      else (p1.1 * 1000, 2 ^ (-p1.2).toNat)
    let p2 := roundRatToDouble q.1 q.2
    if 0 ≤ p2.2 then p2.1 * 2 ^ p2.2.toNat else p2.1 / 2 ^ (-p2.2).toNat

/-- Signed version: `int()` truncates toward zero and both float operations
commute with negation, so the negative case is the mirror image. -/
def pyFrameMs (f : Int) : Int :=
  if 0 ≤ f then (pyFrameMsNat f.toNat : Int) else -(pyFrameMsNat (-f).toNat : Int)

/-- Countdown record produced by `parse_countdown_string`
(`main.py` lines 75-119). -/
structure Countdown where
  raw : List Char
  hours : Int
  minutes : Int
  seconds : Int
  frames : Int
  totalMs : Int
deriving DecidableEq, Repr

/-- Zero value returned on empty, separator-free or unparsable input. -/
def zeroCountdown : Countdown := ⟨[], 0, 0, 0, 0, 0⟩

/-- Model of `parse_countdown_string` (`main.py` lines 75-119).  The `try`
block's failure exits (wrong number of `:`-separated fields, an `int()`
failure) are the explicit fallback branches returning `zeroCountdown`. -/
def parse_countdown_string (raw : List Char) : Countdown :=
  if raw = [] ∨ ¬ ':' ∈ raw then zeroCountdown
  else
    let is_negative := startsWithMinus (pyStrip raw)
    let parse_str := if is_negative then raw.dropWhile (fun c => c = '-') else raw
    match splitOnChar ':' parse_str with
    | [h, m, s, f] =>
      match pyInt h, pyInt m, pyInt s, pyInt f with
      | some hours, some minutes, some seconds, some frames =>
        let totalMs := hours * 3600 * 1000 + minutes * 60 * 1000 + seconds * 1000
          + pyFrameMs frames
        if is_negative then ⟨raw, -hours, minutes, seconds, frames, -totalMs⟩
        else ⟨raw, hours, minutes, seconds, frames, totalMs⟩
      | _, _, _, _ => zeroCountdown
    | _ => zeroCountdown

/-- Cue record as delivered by the engine (the JSON fields `get_cues` reads;
`none` models an absent key). -/
structure CueRecord where
  name : Option (List Char)
  handle : Option Int
  countdown : Option (List Char)
  time : Option (List Char)
  note : Option (List Char)
  operation : Option (List Char)
deriving DecidableEq, Repr

/-- Key under which a processed cue is stored: `cue.get("name") or
cue.get("handle")` — a falsy (`None` or empty) name falls back to the handle,
and a missing handle leaves Python's `None` as the key. -/
inductive CueKey where
  | str (s : List Char)
  | num (n : Int)
  | pyNone
deriving DecidableEq, Repr

/-- Model of `cue.get("name") or cue.get("handle")` (`main.py` line 327). -/
def cue_key (c : CueRecord) : CueKey :=
  match c.name with
  | some s =>
    if s = [] then (match c.handle with | some n => CueKey.num n | none => CueKey.pyNone)
    else CueKey.str s
  | none => match c.handle with | some n => CueKey.num n | none => CueKey.pyNone

/-- Python's `str()` of a natural number. -/
def natToChars (n : Nat) : List Char := Nat.toDigits 10 n

/-- Python's `str()` of an integer. -/
def intToChars (n : Int) : List Char :=
  if n < 0 then '-' :: natToChars (-n).toNat else natToChars n.toNat

/-- Python's `str()` of a stored cue key. -/
def cueKeyStr : CueKey → List Char
  | CueKey.str s => s
  | CueKey.num n => intToChars n
  | CueKey.pyNone => "None".toList

/-- Cue entry as stored in the snapshot by `get_cues` (`main.py` lines
329-338): the original record (the `**cue` spread), the possibly substituted
Countdown, and the two pre-substitution readings kept for filtering. -/
structure StoredCue where
  src : CueRecord
  countdown : Countdown
  original_countdown_ms : Int
  original_time_ms : Option Int
deriving DecidableEq, Repr

/-- Parsing of the optional `countdown` field: `parse_countdown_string(None)`
takes the `not raw` early exit, i.e. behaves as on the empty string. -/
def parseOptCountdown : Option (List Char) → Countdown
  | some s => parse_countdown_string s
  | none => zeroCountdown

/-- Model of `parse_countdown_string(time_str) if time_str else None`
(`main.py` line 306): a missing or empty `time` field yields `None`. -/
def parseTimeField : Option (List Char) → Option Countdown
  | some s => if s = [] then none else some (parse_countdown_string s)
  | none => none

/-- Clamp branch of the fallback policy (`main.py` lines 321-325): zero the
numeric fields, leave `raw` as parsed. -/
def clampCountdownToZero (cd : Countdown) : Countdown :=
  { cd with hours := 0, minutes := 0, seconds := 0, frames := 0, totalMs := 0 }

/-- Per-cue processing of `get_cues` (`main.py` lines 302-338). -/
def processCue (cue : CueRecord) : StoredCue :=
  let countdown_parsed := parseOptCountdown cue.countdown
  let time_parsed := parseTimeField cue.time
  let original_countdown_ms := countdown_parsed.totalMs
  let original_time_ms := time_parsed.map Countdown.totalMs
  let countdown_final :=
    if countdown_parsed.totalMs < 0 then
      match time_parsed with
      | some tp =>
        if 0 ≤ tp.totalMs then { tp with raw := cue.countdown.getD [] }
        else clampCountdownToZero countdown_parsed
      | none => clampCountdownToZero countdown_parsed
    else countdown_parsed
  ⟨cue, countdown_final, original_countdown_ms, original_time_ms⟩

/-- Association-list insertion with Python-dict semantics: an existing key is
overwritten in place, a new key is appended. -/
def dictInsert {α β : Type} [DecidableEq α] : List (α × β) → α → β → List (α × β)
  | [], k, v => [(k, v)]
  | (k0, v0) :: rest, k, v =>
    if k0 = k then (k, v) :: rest else (k0, v0) :: dictInsert rest k v

/-- Association-list lookup with Python-dict semantics. -/
def dictGet {α β : Type} [DecidableEq α] : List (α × β) → α → Option β
  | [], _ => none
  | (k0, v0) :: rest, k => if k0 = k then some v0 else dictGet rest k

/-- Model of the `cue_data` dict built by the loop of `get_cues`
(`main.py` lines 302-338). -/
def processCueList (records : List CueRecord) : List (CueKey × StoredCue) :=
  records.foldl (fun acc cue => dictInsert acc (cue_key cue) (processCue cue)) []

/-- Timeline info block (`info_json` from `get_timelines`; `none` models an
absent key, as after a failed or empty info call). -/
structure TimelineInfo where
  name : Option (List Char)
  mode : Option (List Char)
deriving DecidableEq, Repr

/-- Per-timeline snapshot entry: `{"info": ..., "cues": {...}}`. -/
structure TimelineData where
  info : TimelineInfo
  cues : List (CueKey × StoredCue)
deriving DecidableEq, Repr

/-- The `shared_data["timelines"]` mapping. -/
structure Snapshot where
  timelines : List (Int × TimelineData)
deriving DecidableEq, Repr

/-- Engine responses observed during one fetch cycle.  `timelineList` is the
decoded result of `GET_TIMELINES` (`[]` after a failed call, since
`send_json` then returns an empty mapping and `result.get("result", [])`
yields `[]`).  `cueResult h = none` models an engine failure (timeout /
empty protocol result) or malformed reply for that timeline's cue fetch,
which `get_cues` turns into an empty record list. -/
structure EngineCycle where
  timelineList : List Int
  timelineInfo : Int → TimelineInfo
  cueResult : Int → Option (List CueRecord)

/-- Model of `get_timelines` (`main.py` lines 266-283): rebuild the full
timeline mapping from the engine's current list, with empty cue dicts. -/
def get_timelines (eng : EngineCycle) (_snap : Snapshot) : Snapshot :=
  ⟨eng.timelineList.foldl
    (fun acc h => dictInsert acc h ⟨eng.timelineInfo h, []⟩) []⟩

/-- Model of `get_cues` (`main.py` lines 286-344): process the fetched cue
records (an engine failure degrades to the empty list) and overwrite the
timeline's cue dict wholesale when the handle is still present. -/
def get_cues (eng : EngineCycle) (h : Int) (snap : Snapshot) : Snapshot :=
  let cue_data := processCueList ((eng.cueResult h).getD [])
  ⟨snap.timelines.map fun kv =>
    if kv.1 = h then (kv.1, { kv.2 with cues := cue_data }) else kv⟩

/-- One full fetch cycle of the polling loop (`main.py` lines 384-389):
refresh the timeline list, then fetch cues for every handle now present. -/
def fetchCycle (eng : EngineCycle) (snap : Snapshot) : Snapshot :=
  let snap1 := get_timelines eng snap
  (snap1.timelines.map Prod.fst).foldl (fun s h => get_cues eng h s) snap1

/-- Polling state block of the shared snapshot. -/
structure PollingState where
  enabled : Bool
  enabled_at : Option Nat
  auto_disable_at : Option Nat
deriving DecidableEq, Repr

/-- One record of the broadcast `countdowns` list (`main.py` lines 158-171). -/
structure CountdownRecord where
  id : List Char
  timelineName : List Char
  timelineMode : List Char
  cueName : List Char
  cueType : List Char
  note : List Char
  rawCount : List Char
  hours : Int
  minutes : Int
  seconds : Int
  frames : Int
  totalMs : Int
deriving DecidableEq, Repr

/-- Broadcast payload shape (`main.py` lines 173-177). -/
structure Payload where
  projectName : List Char
  countdowns : List CountdownRecord
  polling : PollingState
deriving DecidableEq, Repr

/-- Record built for one cue inside `buildCountdownPayload`
(`main.py` lines 158-171). -/
def entryOf (tl_handle : Int) (info : TimelineInfo) (cue_handle : CueKey)
    (cue_data : StoredCue) : CountdownRecord :=
  { id := intToChars tl_handle ++ "-".toList ++ cueKeyStr cue_handle
    timelineName := info.name.getD ("Timeline_".toList ++ intToChars tl_handle)
    timelineMode := info.mode.getD "BAD".toList
    cueName := cueKeyStr cue_handle
    cueType := cue_data.src.operation.getD []
    note := cue_data.src.note.getD []
    rawCount := cue_data.countdown.raw
    hours := cue_data.countdown.hours
    minutes := cue_data.countdown.minutes
    seconds := cue_data.countdown.seconds
    frames := cue_data.countdown.frames
    totalMs := cue_data.countdown.totalMs }

/-- Model of `buildCountdownPayload` (`main.py` lines 121-178), with the same
accumulate-and-append control flow: every timeline, every cue, skipping a cue
when its stored `_original_countdown_ms` is negative. -/
def buildCountdownPayload (timelines : List (Int × TimelineData))
    (project_name : List Char) (polling_state : PollingState) : Payload :=
  let countdowns := timelines.foldl
    (fun acc tl =>
      tl.2.cues.foldl
        (fun acc2 cp =>
          if cp.2.original_countdown_ms < 0 then acc2
          else acc2 ++ [entryOf tl.1 tl.2.info cp.1 cp.2])
        acc)
    []
  ⟨project_name, countdowns, polling_state⟩

/-- Six hours, the auto-disable delay (`main.py` lines 399 and 477). -/
def AUTO_DISABLE_SECONDS : Nat := 6 * 3600

/-- Scheduler-visible state: the polling block of the shared snapshot plus
the `auto_disable_task` reference.  `some d` is an armed one-shot timer with
fire deadline `d`; `none` covers both "no task" and "task already finished",
which the code treats identically (`task and not task.done()`).  The code
cancels the tracked task before arming a new one, so the single reference is
the complete set of live timers. -/
structure SchedulerState where
  polling : PollingState
  auto_disable_task : Option Nat
deriving DecidableEq, Repr

/-- Process-start state (`main.py` lines 30-42): polling disabled, no
timestamps, no auto-disable task. -/
def initialSchedulerState : SchedulerState := ⟨⟨false, none, none⟩, none⟩

/-- Status strings returned by the enable endpoint. -/
inductive EnableStatus where
  | st_enabled
  | already_enabled
deriving DecidableEq, Repr

/-- Status strings returned by the disable endpoint. -/
inductive DisableStatus where
  | st_disabled
  | already_disabled
deriving DecidableEq, Repr

/-- State transition of `enable_polling` (`main.py` lines 466-506): an early
no-op return when already enabled; otherwise record the timestamps, cancel
any previous auto-disable task and arm a new one for six hours from now. -/
def enable_polling (now : Nat) (s : SchedulerState) : SchedulerState × EnableStatus :=
  if s.polling.enabled then (s, EnableStatus.already_enabled)
  else
    (⟨⟨true, some now, some (now + AUTO_DISABLE_SECONDS)⟩,
      some (now + AUTO_DISABLE_SECONDS)⟩, EnableStatus.st_enabled)

/-- State transition of `disable_polling` (`main.py` lines 508-529): an early
no-op return when already disabled; otherwise clear the polling fields and
cancel the auto-disable task. -/
def disable_polling (s : SchedulerState) : SchedulerState × DisableStatus :=
  if s.polling.enabled then
    (⟨⟨false, none, none⟩, none⟩, DisableStatus.st_disabled)
  else (s, DisableStatus.already_disabled)

/-- Body of `auto_disable_polling` after its six-hour sleep (`main.py` lines
401-409): clear the polling state if still enabled, always broadcast the
polling state (the returned flag), and drop the task reference. -/
def auto_disable_fire (s : SchedulerState) : SchedulerState × Bool :=
  let p := if s.polling.enabled then PollingState.mk false none none else s.polling
  (⟨p, none⟩, true)

/-- Advance wall-clock time to `t` with no intervening enable/disable call:
the armed auto-disable task fires exactly when its deadline is reached.  The
flag reports whether a polling-state broadcast was emitted. -/
def advanceTo (t : Nat) (s : SchedulerState) : SchedulerState × Bool :=
  match s.auto_disable_task with
  | some deadline => if deadline ≤ t then auto_disable_fire s else (s, false)
  | none => (s, false)

/-- Minimal model of the Python values a decoded JSON reply can take. -/
inductive PyValue where
  | null
  | bool (b : Bool)
  | int (n : Int)
  | str (s : List Char)
  | list (xs : List PyValue)
  | dict (kvs : List (List Char × PyValue))

/-- Outcome of the transport interaction of one `send_json` call: a framed
reply read within the timeout, a timeout, or a connection/write error. -/
inductive TransportOutcome where
  | received (data : List Char)
  | timeout
  | transportError
deriving DecidableEq, Repr

/-- Message terminator token (`main.py` line 47). -/
def MSG_TERMINATOR : List Char := "0xPX".toList

/-- Fuel-bounded replace-all, Python `str.replace` for a nonempty pattern. -/
def replaceSubAux (pat repl : List Char) : Nat → List Char → List Char
  | 0, s => s
  | _, [] => []
  | fuel + 1, c :: rest =>
    if pat.isPrefixOf (c :: rest) then
      repl ++ replaceSubAux pat repl fuel ((c :: rest).drop pat.length)
    else c :: replaceSubAux pat repl fuel rest

/-- Python `str.replace(pat, repl)` for a nonempty pattern. -/
def pyReplace (s pat repl : List Char) : List Char :=
  replaceSubAux pat repl s.length s

/-- Model of `send_json` (`main.py` lines 238-263).  The JSON decoder is a
parameter (`none` models a raised `JSONDecodeError`).  Every failure path —
timeout, transport error, decode failure — is caught by the `except` clause
and degrades to the empty mapping; the function is total, so no failure
propagates as an exception. -/
def send_json (decode : List Char → Option PyValue)
    (outcome : TransportOutcome) : PyValue :=
  match outcome with
  | TransportOutcome.received data =>
    let decoded := pyReplace data MSG_TERMINATOR []
    match decode decoded with
    | some v => v
    | none => PyValue.dict []
  | TransportOutcome.timeout => PyValue.dict []
  | TransportOutcome.transportError => PyValue.dict []

/-! Theorems. -/

/-- C5: `enable()` is idempotent: for every polling state in which `enabled`
is already true, a further call to `enable()` is a no-op that returns the
current unchanged state — it does not reset `enabled_at` or `auto_disable_at`
and does not arm a second auto-disable timer, so after two consecutive
`enable()` calls exactly one auto-disable timer is active (the single armed
task from the first call). -/
theorem claim_C5 :
    (∀ (s : SchedulerState) (now : Nat), s.polling.enabled = true →
      enable_polling now s = (s, EnableStatus.already_enabled)) ∧
    (∀ (s0 : SchedulerState) (n1 n2 : Nat), s0.polling.enabled = false →
      (enable_polling n2 (enable_polling n1 s0).1).1 = (enable_polling n1 s0).1 ∧
      (enable_polling n2 (enable_polling n1 s0).1).2 = EnableStatus.already_enabled ∧
      (enable_polling n2 (enable_polling n1 s0).1).1.auto_disable_task
        = some (n1 + AUTO_DISABLE_SECONDS)) := by
  constructor
  · intro s now h
    simp [enable_polling, h]
  · intro s0 n1 n2 h
    simp [enable_polling, h]

/-- Witness for C5 at the initial state with two enables at times 0 and 5. -/
theorem claim_C5_witness :
    initialSchedulerState.polling.enabled = false ∧
    (enable_polling 5 (enable_polling 0 initialSchedulerState).1).1
      = (enable_polling 0 initialSchedulerState).1 :=
  ⟨rfl, (claim_C5.2 initialSchedulerState 0 5 rfl).1⟩

/-- C9: `disable()` is a no-op on a disabled state (including the initial
state); on an enabled state it clears `enabled`, `enabled_at` and
`auto_disable_at` and cancels the auto-disable timer. -/
theorem claim_C9 :
    (∀ s : SchedulerState, s.polling.enabled = false →
      disable_polling s = (s, DisableStatus.already_disabled)) ∧
    (∀ s : SchedulerState, s.polling.enabled = true →
      disable_polling s
        = (⟨⟨false, none, none⟩, none⟩, DisableStatus.st_disabled)) := by
  constructor
  · intro s h
    simp [disable_polling, h]
  · intro s h
    simp [disable_polling, h]

/-- Witness for C9: `disable()` before any `enable()` is a no-op. -/
theorem claim_C9_witness :
    disable_polling initialSchedulerState
      = (initialSchedulerState, DisableStatus.already_disabled) :=
  claim_C9.1 initialSchedulerState rfl

/-- C6: after `enable()`, six hours of elapsed time with no intervening call
fire the auto-disable timer, which performs the same polling-state transition
as `disable()` (enabled false, timestamps null) and broadcasts the
polling-state change; strictly before the six-hour deadline nothing fires. -/
theorem claim_C6 (s0 : SchedulerState) (now t : Nat)
    (h : s0.polling.enabled = false) :
    (now + AUTO_DISABLE_SECONDS ≤ t →
      advanceTo t (enable_polling now s0).1
        = (⟨⟨false, none, none⟩, none⟩, true) ∧
      (advanceTo t (enable_polling now s0).1).1.polling
        = (disable_polling (enable_polling now s0).1).1.polling) ∧
    (t < now + AUTO_DISABLE_SECONDS →
      advanceTo t (enable_polling now s0).1 = ((enable_polling now s0).1, false)) := by
  constructor
  · intro hle
    constructor
    · simp [enable_polling, h, advanceTo, auto_disable_fire, hle]
    · simp [enable_polling, h, advanceTo, auto_disable_fire, hle, disable_polling]
  · intro hlt
    simp [enable_polling, h, advanceTo, Nat.not_le.mpr hlt]

/-- Witness for C6 at the initial state, enabling at time 0 and advancing to
exactly the six-hour mark. -/
theorem claim_C6_witness :
    advanceTo AUTO_DISABLE_SECONDS (enable_polling 0 initialSchedulerState).1
      = (⟨⟨false, none, none⟩, none⟩, true) :=
  ((claim_C6 initialSchedulerState 0 AUTO_DISABLE_SECONDS rfl).1
    (by simp)).1

/-- C7: a protocol-client call either returns the decoded JSON reply, or — on
timeout, transport error, or JSON decode failure — returns an empty mapping.
The model of `send_json` is a total function, so no failure propagates as an
exception to a caller. -/
theorem claim_C7 (decode : List Char → Option PyValue) (o : TransportOutcome) :
    (∀ d, o = TransportOutcome.received d →
      (∀ v, decode (pyReplace d MSG_TERMINATOR []) = some v →
        send_json decode o = v) ∧
      (decode (pyReplace d MSG_TERMINATOR []) = none →
        send_json decode o = PyValue.dict [])) ∧
    (o = TransportOutcome.timeout → send_json decode o = PyValue.dict []) ∧
    (o = TransportOutcome.transportError → send_json decode o = PyValue.dict []) := by
  refine ⟨?_, ?_, ?_⟩
  · intro d hd
    subst hd
    constructor
    · intro v hv
      simp [send_json, hv]
    · intro hv
      simp [send_json, hv]
  · intro ho
    subst ho
    rfl
  · intro ho
    subst ho
    rfl

/-- Witness for C7 at a concrete timed-out call. -/
theorem claim_C7_witness :
    send_json (fun _ => none) TransportOutcome.timeout = PyValue.dict [] :=
  (claim_C7 (fun _ => none) TransportOutcome.timeout).2.1 rfl

/-- Restatement of the spec's description of the broadcast list, written from
the spec's words for comparison with `buildCountdownPayload`: for every
timeline, one record for exactly the cues whose stored
`original_countdown_ms` is non-negative, combining the cue's display fields
with its Countdown and the parent timeline's name and mode. -/
def payloadSpecRecords (timelines : List (Int × TimelineData)) :
    List CountdownRecord :=
  timelines.flatMap fun tl =>
    (tl.2.cues.filter fun cp => 0 ≤ cp.2.original_countdown_ms).map
      fun cp => entryOf tl.1 tl.2.info cp.1 cp.2

/-- Inner accumulation of `buildCountdownPayload` in filter/map form. -/
theorem payload_inner_foldl (tlh : Int) (info : TimelineInfo)
    (cues : List (CueKey × StoredCue)) (acc : List CountdownRecord) :
    cues.foldl
      (fun acc2 cp =>
        if cp.2.original_countdown_ms < 0 then acc2
        else acc2 ++ [entryOf tlh info cp.1 cp.2]) acc
      = acc ++ (cues.filter fun cp => 0 ≤ cp.2.original_countdown_ms).map
          (fun cp => entryOf tlh info cp.1 cp.2) := by
  induction cues generalizing acc with
  | nil => simp
  | cons cp rest ih =>
    by_cases hneg : cp.2.original_countdown_ms < 0
    · have : ¬ 0 ≤ cp.2.original_countdown_ms := by omega
      simp [List.foldl_cons, hneg, ih, List.filter_cons, this]
    · have : 0 ≤ cp.2.original_countdown_ms := by omega
      simp [List.foldl_cons, hneg, ih, List.filter_cons, this]

/-- Outer accumulation of `buildCountdownPayload` in flatMap form. -/
theorem payload_outer_foldl (timelines : List (Int × TimelineData))
    (acc : List CountdownRecord) :
    timelines.foldl
      (fun acc tl =>
        tl.2.cues.foldl
          (fun acc2 cp =>
            if cp.2.original_countdown_ms < 0 then acc2
            else acc2 ++ [entryOf tl.1 tl.2.info cp.1 cp.2]) acc) acc
      = acc ++ payloadSpecRecords timelines := by
  induction timelines generalizing acc with
  | nil => simp [payloadSpecRecords]
  | cons tl rest ih =>
    rw [List.foldl_cons, payload_inner_foldl, ih]
    simp [payloadSpecRecords, List.append_assoc]

/-- C4: the broadcast payload contains no record for a cue whose stored
`original_countdown_ms` is negative, and exactly one record for every cue
whose stored `original_countdown_ms` is non-negative, combining the cue's
display fields with its (possibly substituted) Countdown and the parent
timeline's name and mode: the countdown list equals the spec-side
filter/map form, record for record and in order. -/
theorem claim_C4 (timelines : List (Int × TimelineData))
    (project_name : List Char) (polling_state : PollingState) :
    buildCountdownPayload timelines project_name polling_state
      = ⟨project_name, payloadSpecRecords timelines, polling_state⟩ := by
  simp [buildCountdownPayload, payload_outer_foldl]

/-- C1: for every cue record processed by the cue fetcher, the stored
`original_countdown_ms` is the pre-substitution parsed countdown's `totalMs`
(the raw negative value in the fallback cases, never zeroed), the cue's
other fields are preserved, and when the parsed countdown's `totalMs` is
negative the stored Countdown's numeric fields are replaced by the parsed
time value when that exists and is non-negative, and are all zero when no
usable time value exists. -/
theorem claim_C1 (cue : CueRecord) :
    (processCue cue).original_countdown_ms
      = (parseOptCountdown cue.countdown).totalMs ∧
    (processCue cue).src = cue ∧
    ((parseOptCountdown cue.countdown).totalMs < 0 →
      (∀ tp, parseTimeField cue.time = some tp → 0 ≤ tp.totalMs →
        (processCue cue).countdown.hours = tp.hours ∧
        (processCue cue).countdown.minutes = tp.minutes ∧
        (processCue cue).countdown.seconds = tp.seconds ∧
        (processCue cue).countdown.frames = tp.frames ∧
        (processCue cue).countdown.totalMs = tp.totalMs) ∧
      ((∀ tp, parseTimeField cue.time = some tp → tp.totalMs < 0) →
        (processCue cue).countdown.hours = 0 ∧
        (processCue cue).countdown.minutes = 0 ∧
        (processCue cue).countdown.seconds = 0 ∧
        (processCue cue).countdown.frames = 0 ∧
        (processCue cue).countdown.totalMs = 0)) := by
  refine ⟨rfl, rfl, ?_⟩
  intro hneg
  constructor
  · intro tp htp h0
    simp [processCue, hneg, htp, h0]
  · intro hall
    rcases htp : parseTimeField cue.time with _ | tp
    · simp [processCue, hneg, htp, clampCountdownToZero]
    · have h2 : ¬ 0 ≤ tp.totalMs := by
        have := hall tp htp
        omega
      simp [processCue, hneg, htp, h2, clampCountdownToZero]

/-- Concrete cue record with a negative countdown and no time field. -/
def cueNoTime : CueRecord :=
  ⟨none, none, some "-00:00:05:00".toList, none, none, none⟩

/-- Witness for C1 at a cue whose countdown parses to -5000 ms with no
usable time field: the stored Countdown is clamped to zero while
`original_countdown_ms` keeps the raw negative reading. -/
theorem claim_C1_witness :
    (parseOptCountdown cueNoTime.countdown).totalMs < 0 ∧
    (processCue cueNoTime).countdown.totalMs = 0 ∧
    (processCue cueNoTime).original_countdown_ms = -5000 := by
  have h := claim_C1 cueNoTime
  refine ⟨by decide, ?_, ?_⟩
  · exact ((h.2.2 (by decide)).2 (fun tp htp => nomatch htp)).2.2.2.2
  · rw [h.1]
    decide

/-- Helper: a parse result is either the zero Countdown or keeps the input as
its `raw` field. -/
theorem parse_zero_or_raw (s : List Char) :
    parse_countdown_string s = zeroCountdown
      ∨ (parse_countdown_string s).raw = s := by
  unfold parse_countdown_string
  split
  · exact Or.inl rfl
  · dsimp only
    split
    · split
      · split <;> exact Or.inr rfl
      · exact Or.inl rfl
    · exact Or.inl rfl

/-- C10: whenever the parsed countdown is negative, the stored Countdown's
`raw` field is the original countdown string (nonempty): the time-field
substitution writes the countdown string back over the time string's `raw`,
and the clamp-to-zero branch zeroes only the numeric fields. -/
theorem claim_C10 (cue : CueRecord)
    (hneg : (parseOptCountdown cue.countdown).totalMs < 0) :
    ∃ s, cue.countdown = some s ∧ s ≠ []
      ∧ (processCue cue).countdown.raw = s := by
  rcases hcs : cue.countdown with _ | s
  · rw [hcs] at hneg
    exact absurd hneg (by decide)
  · rw [hcs] at hneg
    have hraw : (parse_countdown_string s).raw = s := by
      rcases parse_zero_or_raw s with hz | hr
      · rw [show (parseOptCountdown (some s)) = parse_countdown_string s from rfl,
          hz] at hneg
        exact absurd hneg (by decide)
      · exact hr
    have hne : s ≠ [] := by
      intro hnil
      rw [hnil] at hneg
      exact absurd hneg (by decide)
    refine ⟨s, rfl, hne, ?_⟩
    show (processCue cue).countdown.raw = s
    have hneg' : (parse_countdown_string s).totalMs < 0 := hneg
    rcases htp : parseTimeField cue.time with _ | tp
    · simp [processCue, hcs, hneg', htp, clampCountdownToZero,
        parseOptCountdown, hraw]
    · by_cases h0 : 0 ≤ tp.totalMs
      · simp [processCue, hcs, hneg', htp, h0, parseOptCountdown]
      · simp [processCue, hcs, hneg', htp, h0, clampCountdownToZero,
          parseOptCountdown, hraw]

/-- Concrete cue record exercising the time-field substitution. -/
def cueWithTime : CueRecord :=
  ⟨none, none, some "-00:00:05:00".toList, some "00:00:03:00".toList,
   none, none⟩

/-- Witness for C10 at a cue where substitution occurs: the stored raw is the
countdown string even though the numeric fields come from the time field. -/
theorem claim_C10_witness :
    (parseOptCountdown cueWithTime.countdown).totalMs < 0 ∧
    ∃ s, cueWithTime.countdown = some s ∧ s ≠ []
      ∧ (processCue cueWithTime).countdown.raw = s :=
  ⟨by decide, claim_C10 cueWithTime (by decide)⟩

/-- Lookup after a Python-dict insertion. -/
theorem dictGet_dictInsert {α β : Type} [DecidableEq α]
    (d : List (α × β)) (k k' : α) (v : β) :
    dictGet (dictInsert d k v) k' = if k = k' then some v else dictGet d k' := by
  induction d with
  | nil => simp [dictInsert, dictGet]
  | cons kv rest ih =>
    by_cases hk : kv.1 = k
    · simp only [dictInsert]
      rw [if_pos hk]
      by_cases hk' : k = k'
      · simp [dictGet, hk', hk]
      · simp [dictGet, hk', hk ▸ hk']
    · simp only [dictInsert]
      rw [if_neg hk]
      by_cases hk' : kv.1 = k'
      · have : ¬ k = k' := fun h => hk (h ▸ hk')
        simp [dictGet, hk', this]
      · simp [dictGet, hk', ih]

/-- Handles absent from the engine list are untouched by the timeline
rebuild fold. -/
theorem timeline_build_get_notmem (eng : EngineCycle) (l : List Int)
    (init : List (Int × TimelineData)) (h : Int) (hnm : h ∉ l) :
    dictGet (l.foldl (fun acc k => dictInsert acc k ⟨eng.timelineInfo k, []⟩) init) h
      = dictGet init h := by
  induction l generalizing init with
  | nil => rfl
  | cons k rest ih =>
    have hk : k ≠ h := fun he => hnm (he ▸ List.mem_cons_self k rest)
    have hrest : h ∉ rest := fun hm => hnm (List.mem_cons_of_mem k hm)
    rw [List.foldl_cons, ih _ hrest, dictGet_dictInsert, if_neg hk]

/-- Every handle reported by the engine maps, after the timeline rebuild, to
its fresh info with an empty cue dict. -/
theorem timeline_build_get (eng : EngineCycle) (l : List Int)
    (init : List (Int × TimelineData)) (h : Int) (hmem : h ∈ l) :
    dictGet (l.foldl (fun acc k => dictInsert acc k ⟨eng.timelineInfo k, []⟩) init) h
      = some ⟨eng.timelineInfo h, []⟩ := by
  induction l generalizing init with
  | nil => exact absurd hmem (List.not_mem_nil h)
  | cons k rest ih =>
    by_cases hrest : h ∈ rest
    · rw [List.foldl_cons, ih _ hrest]
    · have hk : k = h := by
        rcases List.mem_cons.mp hmem with he | hm
        · exact he.symm
        · exact absurd hm hrest
      rw [List.foldl_cons, timeline_build_get_notmem eng rest _ h hrest,
        dictGet_dictInsert, if_pos hk, hk]

/-- Lookup through a key-preserving map over an association list. -/
theorem dictGet_map_val {α β : Type} [DecidableEq α]
    (l : List (α × β)) (f : α → β → β) (h : α) :
    dictGet (l.map fun kv => (kv.1, f kv.1 kv.2)) h
      = (dictGet l h).map (f h) := by
  induction l with
  | nil => rfl
  | cons kv rest ih =>
    by_cases hk : kv.1 = h
    · subst hk
      simp [dictGet]
    · simp [dictGet, hk, ih]

/-- Lookup after one `get_cues` call. -/
theorem get_cues_dictGet (eng : EngineCycle) (k h : Int) (s : Snapshot) :
    dictGet (get_cues eng k s).timelines h
      = (dictGet s.timelines h).map fun tl =>
          if h = k then
            { tl with cues := processCueList ((eng.cueResult k).getD []) }
          else tl := by
  rcases s with ⟨tls⟩
  induction tls with
  | nil => rfl
  | cons kv rest ih =>
    simp only [get_cues, List.map_cons] at ih ⊢
    by_cases hk2 : kv.1 = k
    · rw [if_pos hk2]
      by_cases hh : kv.1 = h
      · subst hh
        simp [dictGet, hk2]
      · simp [dictGet, hh, ih]
    · rw [if_neg hk2]
      by_cases hh : kv.1 = h
      · subst hh
        simp [dictGet, hk2]
      · simp [dictGet, hh, ih]

/-- The per-handle cue fold preserves "fresh info, empty cues" at a handle
whose cue fetch failed. -/
theorem fold_cues_preserve (eng : EngineCycle) (handles : List Int) (h : Int)
    (hcr : eng.cueResult h = none) (s : Snapshot)
    (hs : dictGet s.timelines h = some ⟨eng.timelineInfo h, []⟩) :
    dictGet ((handles.foldl (fun s k => get_cues eng k s) s)).timelines h
      = some ⟨eng.timelineInfo h, []⟩ := by
  induction handles generalizing s with
  | nil => exact hs
  | cons k rest ih =>
    rw [List.foldl_cons]
    refine ih (get_cues eng k s) ?_
    rw [get_cues_dictGet, hs]
    by_cases hk : h = k
    · subst hk
      simp [hcr, processCueList]
    · simp [hk]

/-- Snapshot holding one timeline (handle 1) with one known cue. -/
def snapBefore : Snapshot :=
  ⟨[(1, ⟨⟨some "TL".toList, some "Play".toList⟩,
      [(CueKey.str ['a'],
        ⟨⟨some ['a'], none, some "00:00:01:00".toList, none, none, none⟩,
         ⟨"00:00:01:00".toList, 0, 0, 1, 0, 1000⟩, 1000, none⟩)]⟩)]⟩

/-- Engine cycle in which the timeline list still reports handle 1 but the
cue fetch for handle 1 fails (timeout / empty protocol result). -/
def engFailingCues : EngineCycle :=
  ⟨[1], fun _ => ⟨some "TL".toList, some "Play".toList⟩, fun _ => none⟩

/-- Counterexample to C3 as stated: handle 1 is still reported by the
timeline list and its cue fetch fails, yet after the full fetch cycle the
previously stored cue for that timeline is gone (the cue dict is empty, not
unchanged). -/
theorem claim_C3_counterexample :
    (1 : Int) ∈ engFailingCues.timelineList ∧
    engFailingCues.cueResult 1 = none ∧
    (dictGet snapBefore.timelines 1).map TimelineData.cues
      = some [(CueKey.str ['a'],
          ⟨⟨some ['a'], none, some "00:00:01:00".toList, none, none, none⟩,
           ⟨"00:00:01:00".toList, 0, 0, 1, 0, 1000⟩, 1000, none⟩)] ∧
    (dictGet (fetchCycle engFailingCues snapBefore).timelines 1).map
        TimelineData.cues
      ≠ (dictGet snapBefore.timelines 1).map TimelineData.cues := by
  refine ⟨by decide, rfl, rfl, ?_⟩
  decide

/-- C3 amended: a full fetch cycle that encounters an engine failure for one
timeline's cue fetch leaves that timeline present with its refreshed info but
with an empty cue mapping — the timeline refresh clears the previous cues and
the failed cue fetch stores an empty cue dict instead of restoring them. -/
theorem claim_C3_amended (snap : Snapshot) (eng : EngineCycle) (h : Int)
    (hmem : h ∈ eng.timelineList) (hcr : eng.cueResult h = none) :
    dictGet (fetchCycle eng snap).timelines h
      = some ⟨eng.timelineInfo h, []⟩ := by
  unfold fetchCycle
  refine fold_cues_preserve eng _ h hcr _ ?_
  exact timeline_build_get eng eng.timelineList [] h hmem

/-- Witness for the amended C3 at the concrete snapshot and failing engine. -/
theorem claim_C3_witness :
    (1 : Int) ∈ engFailingCues.timelineList ∧
    dictGet (fetchCycle engFailingCues snapBefore).timelines 1
      = some ⟨engFailingCues.timelineInfo 1, []⟩ :=
  ⟨by decide, claim_C3_amended snapBefore engFailingCues 1 (by decide) rfl⟩

/-- Digit characters sit in code points 48-57. -/
theorem digit_bounds {c : Char} (h : isDigitChar c = true) :
    48 ≤ c.toNat ∧ c.toNat ≤ 57 := by
  simpa [isDigitChar, Bool.and_eq_true, decide_eq_true_eq] using h

/-- Digit characters are not ASCII whitespace. -/
theorem digit_not_space {c : Char} (h : isDigitChar c = true) :
    isPySpace c = false := by
  have hb := digit_bounds h
  simp only [isPySpace, Bool.or_eq_false_iff, decide_eq_false_iff_not]
  omega

/-- Digit characters differ from the minus sign. -/
theorem digit_ne_minus {c : Char} (h : isDigitChar c = true) : c ≠ '-' := by
  intro he
  subst he
  exact absurd h (by decide)

/-- Digit characters differ from the plus sign. -/
theorem digit_ne_plus {c : Char} (h : isDigitChar c = true) : c ≠ '+' := by
  intro he
  subst he
  exact absurd h (by decide)

/-- Digit characters differ from the colon separator. -/
theorem digit_ne_colon {c : Char} (h : isDigitChar c = true) : c ≠ ':' := by
  intro he
  subst he
  exact absurd h (by decide)

/-- Digit characters differ from the underscore. -/
theorem digit_ne_underscore {c : Char} (h : isDigitChar c = true) : c ≠ '_' := by
  intro he
  subst he
  exact absurd h (by decide)

/-- A list none of whose characters satisfies the predicate is left intact by
`dropWhile`. -/
theorem dropWhile_false {p : Char → Bool} (s : List Char)
    (h : ∀ c ∈ s, p c = false) : s.dropWhile p = s := by
  cases s with
  | nil => rfl
  | cons c rest => simp [List.dropWhile_cons, h c (List.mem_cons_self c rest)]

/-- Whitespace-free strings are fixed points of `pyStrip`. -/
theorem pyStrip_id (s : List Char) (h : ∀ c ∈ s, isPySpace c = false) :
    pyStrip s = s := by
  unfold pyStrip
  rw [dropWhile_false s h, dropWhile_false s.reverse
    (fun c hc => h c (List.mem_reverse.mp hc)), List.reverse_reverse]

/-- String-of-digits predicate used to describe well-formed components. -/
def DigitStr (s : List Char) : Prop :=
  s ≠ [] ∧ ∀ c ∈ s, isDigitChar c = true

instance (s : List Char) : Decidable (DigitStr s) := by
  unfold DigitStr
  infer_instance

/-- Value denoted by a string of decimal digits. -/
def digitsToNat (s : List Char) : Nat :=
  s.foldl (fun a c => a * 10 + (c.toNat - 48)) 0

/-- Digit runs evaluate as position-weighted folds, from any accumulator. -/
theorem pyDigitsRest_digits (s : List Char)
    (hall : ∀ c ∈ s, isDigitChar c = true) (acc : Nat) :
    pyDigitsRest acc s
      = some (s.foldl (fun a c => a * 10 + (c.toNat - 48)) acc) := by
  induction s generalizing acc with
  | nil => rfl
  | cons c rest ih =>
    have hc := hall c (List.mem_cons_self c rest)
    have hrest : ∀ x ∈ rest, isDigitChar x = true :=
      fun x hx => hall x (List.mem_cons_of_mem c hx)
    unfold pyDigitsRest
    rw [if_neg (digit_ne_underscore hc), if_pos hc, ih hrest]
    simp [List.foldl_cons]

/-- A nonempty all-digit string parses to its decimal value. -/
theorem pyDigits_digits (s : List Char) (h : DigitStr s) :
    pyDigits s = some (digitsToNat s) := by
  rcases h with ⟨hne, hall⟩
  cases s with
  | nil => exact absurd rfl hne
  | cons c rest =>
    have hc := hall c (List.mem_cons_self c rest)
    have hrest : ∀ x ∈ rest, isDigitChar x = true :=
      fun x hx => hall x (List.mem_cons_of_mem c hx)
    simp [pyDigits, hc, pyDigitsRest_digits rest hrest, digitsToNat]

/-- Python's `int()` on a nonempty all-digit string returns its value. -/
theorem pyInt_digits (s : List Char) (h : DigitStr s) :
    pyInt s = some ((digitsToNat s : Int)) := by
  have hstrip : pyStrip s = s :=
    pyStrip_id s (fun c hc => digit_not_space (h.2 c hc))
  unfold pyInt
  rw [hstrip]
  rcases h with ⟨hne, hall⟩
  cases s with
  | nil => exact absurd rfl hne
  | cons c rest =>
    have hc := hall c (List.mem_cons_self c rest)
    simp [digit_ne_minus hc, digit_ne_plus hc,
      pyDigits_digits (c :: rest) ⟨hne, hall⟩]

/-- Splitting a separator-free string yields a single group. -/
theorem splitOnChar_not_mem (sep : Char) (a : List Char) (h : sep ∉ a) :
    splitOnChar sep a = [a] := by
  induction a with
  | nil => rfl
  | cons c rest ih =>
    have hc : ¬ c = sep := fun he => h (he ▸ List.mem_cons_self c rest)
    have hrest : sep ∉ rest := fun hm => h (List.mem_cons_of_mem c hm)
    simp [splitOnChar, hc, ih hrest]

/-- Splitting peels off a leading separator-free group. -/
theorem splitOnChar_append (sep : Char) (a rest : List Char) (h : sep ∉ a) :
    splitOnChar sep (a ++ sep :: rest) = a :: splitOnChar sep rest := by
  induction a with
  | nil => simp [splitOnChar]
  | cons c a0 ih =>
    have hc : ¬ c = sep := fun he => h (he ▸ List.mem_cons_self c a0)
    have ha0 : sep ∉ a0 := fun hm => h (List.mem_cons_of_mem c hm)
    rw [List.cons_append, splitOnChar]
    simp only [hc, if_false, ih ha0]

/-- The float model on a cast natural agrees with its natural form. -/
theorem pyFrameMs_natCast (n : Nat) :
    pyFrameMs (n : Int) = (pyFrameMsNat n : Int) := by
  simp [pyFrameMs, Int.toNat_natCast]

/-- Well-formed countdown string: an optional leading minus followed by four
colon-separated digit runs. -/
def mkRaw (neg : Bool) (a b c d : List Char) : List Char :=
  (if neg then ['-'] else []) ++ (a ++ ':' :: (b ++ ':' :: (c ++ ':' :: d)))

/-- Characterization of `parse_countdown_string` on well-formed input: the
four components are returned verbatim, `totalMs` is assembled from them with
the double-precision frame conversion, and a leading minus negates exactly
`totalMs` and `hours`. -/
theorem parse_wellformed (neg : Bool) (a b c d : List Char)
    (ha : DigitStr a) (hb : DigitStr b) (hc : DigitStr c) (hd : DigitStr d) :
    parse_countdown_string (mkRaw neg a b c d) =
      ⟨mkRaw neg a b c d,
       (if neg then -(digitsToNat a : Int) else (digitsToNat a : Int)),
       (digitsToNat b : Int), (digitsToNat c : Int), (digitsToNat d : Int),
       (if neg then -1 else 1) *
         ((digitsToNat a : Int) * 3600000 + (digitsToNat b : Int) * 60000
          + (digitsToNat c : Int) * 1000
          + (pyFrameMsNat (digitsToNat d) : Int))⟩ := by
  obtain ⟨ah, a0, rfl⟩ := List.exists_cons_of_ne_nil ha.1
  have hah : isDigitChar ah = true := ha.2 ah (List.mem_cons_self ah a0)
  set body : List Char :=
    (ah :: a0) ++ ':' :: (b ++ ':' :: (c ++ ':' :: d)) with hbody
  have hmem_body : ∀ ch ∈ body, isDigitChar ch = true ∨ ch = ':' := by
    intro ch hch
    rw [hbody] at hch
    rcases List.mem_append.mp hch with h | h
    · exact Or.inl (ha.2 ch h)
    · rcases List.mem_cons.mp h with h | h
      · exact Or.inr h
      · rcases List.mem_append.mp h with h | h
        · exact Or.inl (hb.2 ch h)
        · rcases List.mem_cons.mp h with h | h
          · exact Or.inr h
          · rcases List.mem_append.mp h with h | h
            · exact Or.inl (hc.2 ch h)
            · rcases List.mem_cons.mp h with h | h
              · exact Or.inr h
              · exact Or.inl (hd.2 ch h)
  have hspace_body : ∀ ch ∈ body, isPySpace ch = false := by
    intro ch hch
    rcases hmem_body ch hch with h | h
    · exact digit_not_space h
    · subst h
      decide
  have hbody_cons : body = ah :: (a0 ++ ':' :: (b ++ ':' :: (c ++ ':' :: d))) := by
    rw [hbody]
    simp [List.cons_append]
  have hmem_colon : ':' ∈ body := by
    rw [hbody]
    simp
  have hbody_ne : body ≠ [] := by
    rw [hbody_cons]
    simp
  have hsw_body : startsWithMinus body = false := by
    rw [hbody_cons]
    simp [startsWithMinus, digit_ne_minus hah]
  have hsplit : splitOnChar ':' body = [ah :: a0, b, c, d] := by
    have hna : ':' ∉ ah :: a0 := fun hm => digit_ne_colon (ha.2 _ hm) rfl
    have hnb : ':' ∉ b := fun hm => digit_ne_colon (hb.2 _ hm) rfl
    have hnc : ':' ∉ c := fun hm => digit_ne_colon (hc.2 _ hm) rfl
    have hnd : ':' ∉ d := fun hm => digit_ne_colon (hd.2 _ hm) rfl
    rw [hbody, splitOnChar_append _ _ _ hna, splitOnChar_append _ _ _ hnb,
      splitOnChar_append _ _ _ hnc, splitOnChar_not_mem _ _ hnd]
  have hA := pyInt_digits (ah :: a0) ha
  have hB := pyInt_digits b hb
  have hC := pyInt_digits c hc
  have hD := pyInt_digits d hd
  cases neg with
  | false =>
    have hraw : mkRaw false (ah :: a0) b c d = body := by
      rw [hbody, mkRaw]
      simp
    rw [hraw]
    have hcond : ¬(body = [] ∨ ¬ ':' ∈ body) := by
      intro hor
      rcases hor with h | h
      · exact hbody_ne h
      · exact h hmem_colon
    have hstrip : pyStrip body = body := pyStrip_id _ hspace_body
    simp only [parse_countdown_string, hcond, if_false, hstrip, hsw_body,
      hsplit, hA, hB, hC, hD, pyFrameMs_natCast, Bool.false_eq_true,
      Countdown.mk.injEq, ite_false]
    ring_nf
    simp
  | true =>
    have hraw : mkRaw true (ah :: a0) b c d = '-' :: body := by
      rw [hbody, mkRaw]
      simp
    rw [hraw]
    have hcond : ¬(('-' :: body) = [] ∨ ¬ ':' ∈ ('-' :: body)) := by
      intro hor
      rcases hor with h | h
      · exact absurd h (by simp)
      · exact h (List.mem_cons_of_mem _ hmem_colon)
    have hspace : ∀ ch ∈ ('-' :: body), isPySpace ch = false := by
      intro ch hch
      rcases List.mem_cons.mp hch with h | h
      · subst h
        decide
      · exact hspace_body ch h
    have hstrip : pyStrip ('-' :: body) = '-' :: body := pyStrip_id _ hspace
    have hsw : startsWithMinus ('-' :: body) = true := by
      simp [startsWithMinus]
    have hdrop : ('-' :: body).dropWhile (fun c => c = '-') = body := by
      rw [hbody_cons]
      simp [List.dropWhile_cons, digit_ne_minus hah]
    simp only [parse_countdown_string, hcond, if_false, hstrip, hsw,
      if_true, hdrop, hsplit, hA, hB, hC, hD, pyFrameMs_natCast,
      Countdown.mk.injEq, ite_true]
    ring_nf
    simp

set_option maxRecDepth 1000000 in
set_option maxHeartbeats 1000000 in
/-- Below 969 frames the double-precision conversion agrees with exact floor
division; 969 is the first point of disagreement. -/
theorem frameMs_small : ∀ f < 969, pyFrameMsNat f = f * 1000 / 60 := by
  decide

/-- Counterexample to C2 as stated: the well-formed input `"00:00:00:969"`
has `totalMs` 16149 under the code's double-precision conversion, while the
claim's formula `floor(frames/60*1000)` gives 16150. -/
theorem claim_C2_counterexample :
    "00:00:00:969".toList
      = mkRaw false "00".toList "00".toList "00".toList "969".toList ∧
    DigitStr "969".toList ∧
    (parse_countdown_string "00:00:00:969".toList).totalMs
      ≠ (0 : Int) * 3600000 + 0 * 60000 + 0 * 1000
        + ((969 * 1000 / 60 : Nat) : Int) ∧
    (parse_countdown_string "00:00:00:969".toList).totalMs = 16149 := by
  refine ⟨by decide, by decide, by decide, by decide⟩

/-- C2 amended: for every input of the form of four colon-separated digit
components, optionally preceded by a leading minus, whose frame component is
at most 968, the parse returns the four components with
`totalMs = hours*3600000 + minutes*60000 + seconds*1000 +
floor(frames/60*1000)`, negating exactly `totalMs` and `hours` on a leading
minus (for frame components beyond 968 the code's double-precision frame
conversion can differ from the floor formula by one); in particular
`"01:02:03:30"` yields `totalMs` 3723500 and `"-00:00:05:00"` yields
`hours` 0 and `totalMs` -5000. -/
theorem claim_C2_amended (neg : Bool) (a b c d : List Char)
    (ha : DigitStr a) (hb : DigitStr b) (hc : DigitStr c) (hd : DigitStr d)
    (hbound : digitsToNat d ≤ 968) :
    parse_countdown_string (mkRaw neg a b c d) =
      ⟨mkRaw neg a b c d,
       (if neg then -(digitsToNat a : Int) else (digitsToNat a : Int)),
       (digitsToNat b : Int), (digitsToNat c : Int), (digitsToNat d : Int),
       (if neg then -1 else 1) *
         ((digitsToNat a : Int) * 3600000 + (digitsToNat b : Int) * 60000
          + (digitsToNat c : Int) * 1000
          + ((digitsToNat d * 1000 / 60 : Nat) : Int))⟩ ∧
    parse_countdown_string "01:02:03:30".toList
      = ⟨"01:02:03:30".toList, 1, 2, 3, 30, 3723500⟩ ∧
    parse_countdown_string "-00:00:05:00".toList
      = ⟨"-00:00:05:00".toList, 0, 0, 5, 0, -5000⟩ := by
  refine ⟨?_, by decide, by decide⟩
  rw [parse_wellformed neg a b c d ha hb hc hd,
    frameMs_small (digitsToNat d) (by omega)]

/-- Witness for the amended C2 at the spec's first example string. -/
theorem claim_C2_witness :
    DigitStr "01".toList ∧ digitsToNat "30".toList ≤ 968 ∧
    parse_countdown_string
        (mkRaw false "01".toList "02".toList "03".toList "30".toList)
      = ⟨mkRaw false "01".toList "02".toList "03".toList "30".toList,
         1, 2, 3, 30, 3723500⟩ := by
  refine ⟨by decide, by decide, ?_⟩
  rw [(claim_C2_amended false "01".toList "02".toList "03".toList "30".toList
    (by decide) (by decide) (by decide) (by decide) (by decide)).1]
  decide

/-- The string actually split by the parser: all leading minus characters are
removed first whenever the stripped input starts with a minus
(`main.py` lines 86-88). -/
def parseStrOf (s : List Char) : List Char :=
  if startsWithMinus (pyStrip s) then s.dropWhile (fun c => c = '-') else s

/-- Decidable test: does the string split on `:` into exactly four
`int()`-parsable components. -/
def splitsIntoFourInts (l : List Char) : Bool :=
  match splitOnChar ':' l with
  | [h, m, s, f] =>
    (pyInt h).isSome && (pyInt m).isSome && (pyInt s).isSome && (pyInt f).isSome
  | _ => false

/-- Counterexample to C8 as stated: `"--1:2:3:4"` splits on `:` into four
components of which `"--1"` is not `int()`-parsable, so the claim requires
the zero Countdown — but the code first strips all leading minus characters
and parses `"1:2:3:4"`, returning a non-zero (negated) Countdown. -/
theorem claim_C8_counterexample :
    "--1:2:3:4".toList ≠ [] ∧
    ':' ∈ "--1:2:3:4".toList ∧
    splitOnChar ':' "--1:2:3:4".toList
      = ["--1".toList, "2".toList, "3".toList, "4".toList] ∧
    pyInt "--1".toList = none ∧
    parse_countdown_string "--1:2:3:4".toList ≠ zeroCountdown ∧
    parse_countdown_string "--1:2:3:4".toList
      = ⟨"--1:2:3:4".toList, -1, 2, 3, 4, -3723066⟩ := by
  refine ⟨by decide, by decide, by decide, by decide, by decide, by decide⟩

/-- C8 amended: for every input string that is empty, lacks a `:` character,
or — after the removal of leading minus characters the code performs when the
stripped string starts with `-` — does not split on `:` into exactly four
`int()`-parsable components, the parse returns the zero Countdown and never
raises (the model is a total function). -/
theorem claim_C8_amended (s : List Char)
    (h : s = [] ∨ ':' ∉ s ∨ splitsIntoFourInts (parseStrOf s) = false) :
    parse_countdown_string s = zeroCountdown := by
  unfold parse_countdown_string
  split
  · rfl
  next hcond =>
    have hsf : splitsIntoFourInts (parseStrOf s) = false := by
      rcases h with h1 | h2 | h3
      · exact absurd (Or.inl h1) hcond
      · exact absurd (Or.inr h2) hcond
      · exact h3
    dsimp only
    split
    next h1 m1 s1 f1 heq =>
      split
      next hours minutes seconds frames hh hm hs hf =>
        exfalso
        have ht : splitsIntoFourInts (parseStrOf s) = true := by
          unfold splitsIntoFourInts
          rw [show splitOnChar ':' (parseStrOf s) = [h1, m1, s1, f1] from heq]
          simp [hh, hm, hs, hf]
        rw [ht] at hsf
        exact Bool.noConfusion hsf
      next => rfl
    next => rfl

/-- Witness for the amended C8 at a separator-free string. -/
theorem claim_C8_witness :
    parse_countdown_string "abc".toList = zeroCountdown :=
  claim_C8_amended "abc".toList (Or.inr (Or.inl (by decide)))

end Pixera
